import Mathlib

/-!
Verification of the Taskify backend: a shallow embedding of the task routes
(`routes/tasks.js`) and the authentication middleware
(`middleware/authMiddleware.js`), together with proofs of the behavioural
claims about ownership scoping, validation, update semantics, listing and
authentication.

Modelling conventions:
* JavaScript string-field truthiness (`if (title) ...`) is modelled by
  `truthy : Option String → Bool`, where `none` is `undefined` and
  `some ""` is the falsy empty string.
* `new Date(s)` parsing is platform behaviour, modelled as an explicit
  parameter `parseDate : String → Option Int` (epoch milliseconds on
  success, `none` when the result is an invalid date).
* MongoDB ObjectId casting is modelled by `isValidObjectId`; a raw `:id`
  path parameter that fails the check corresponds to a Mongoose
  `CastError`.
* `jwt.verify` is third-party behaviour, modelled as an explicit parameter
  `verify : String → VerifyResult` (decoded user id, or the
  `JsonWebTokenError` / `TokenExpiredError` failure modes).
* Document timestamps (`createdAt` / `updatedAt`) are not part of the
  state model; claims about field preservation are about the task's data
  fields.
-/

namespace Taskify

/-- A stored task document, as used by the task routes: owner reference,
title, description, due date (epoch milliseconds), status and priority. -/
structure Task where
  id : String
  userId : Nat
  title : String
  description : String
  dueDate : Int
  status : String
  priority : String
deriving Repr, DecidableEq

/-- A user record as resolved by the auth middleware (password excluded by
the `-password` projection). -/
structure User where
  id : Nat
  username : String
  email : String
deriving Repr, DecidableEq

/-- JavaScript truthiness of an optional string value: `undefined` and the
empty string are falsy, every other string is truthy. -/
def truthy : Option String → Bool
  | none => false
  | some s => s != ""

/-- Whitespace test used by string trimming. -/
def isWsChar (c : Char) : Bool :=
  c == ' ' || c == '\t' || c == '\n' || c == '\r'

/-- Remove leading and trailing whitespace from a character list. -/
def trimChars (l : List Char) : List Char :=
  ((l.dropWhile isWsChar).reverse.dropWhile isWsChar).reverse

/-- JavaScript `String.prototype.trim`: strips leading and trailing
whitespace. -/
def jsTrim (s : String) : String :=
  String.mk (trimChars s.toList)

/-- Whether the second character list is an initial segment of the
first. -/
def listStartsWith : List Char → List Char → Bool
  | _, [] => true
  | [], _ :: _ => false
  | a :: as, b :: bs => a == b && listStartsWith as bs

/-- JavaScript `String.prototype.startsWith`. -/
def strStartsWith (s pre : String) : Bool :=
  listStartsWith s.toList pre.toList

/-- JavaScript `String.prototype.substring(n)`: the characters from index
`n` on. -/
def strDrop (s : String) (n : Nat) : String :=
  String.mk (s.toList.drop n)

/-- Hexadecimal digit test, used by the ObjectId well-formedness check. -/
def isHexChar (c : Char) : Bool :=
  c.isDigit || ('a' ≤ c && c ≤ 'f') || ('A' ≤ c && c ≤ 'F')

/-- Well-formedness of a MongoDB ObjectId string: 24 hexadecimal
characters. A raw `:id` parameter failing this check raises `CastError`
when Mongoose casts the query filter. -/
def isValidObjectId (s : String) : Bool :=
  s.length == 24 && s.toList.all isHexChar

/-- Closed enumeration of task statuses. -/
def statusEnum : List String := ["pending", "in-progress", "completed"]

/-- Closed enumeration of task priorities. -/
def priorityEnum : List String := ["low", "medium", "high"]

/-- Modelled from the spec: the Mongoose `Task` schema validation
(`models/Task.js` is not in the source snapshot; only its callers are).
Per the spec's data model, title is non-empty and at most 200 characters,
description at most 1000 characters, and status and priority are closed
enumerations. Mongoose runs this validation on `save()` and, for update
paths, under `runValidators: true`; a failure rejects with a
`ValidationError`. -/
def validateTask (t : Task) : Bool :=
  t.title != "" && t.title.length ≤ 200 &&
  t.description.length ≤ 1000 &&
  statusEnum.contains t.status && priorityEnum.contains t.priority

/-- A JSON request body for the task routes; each field is `none` when the
key is absent (`undefined` after destructuring). -/
structure Body where
  title : Option String := none
  description : Option String := none
  dueDate : Option String := none
  status : Option String := none
  priority : Option String := none
deriving Repr, DecidableEq

/-- Outcome of a single-task route handler: a success response carrying a
task, or an error response carrying a message. -/
inductive TaskResp where
  | ok (code : Nat) (t : Task)
  | fail (code : Nat) (message : String)
deriving Repr, DecidableEq

/-- HTTP status code of a response. -/
def TaskResp.code : TaskResp → Nat
  | .ok c _ => c
  | .fail c _ => c

/-- The shared ownership-scoped lookup
`Task.findOne({ _id: id, userId: uid })`: first task matching both the
task identifier and the owner. -/
def findOwned (store : List Task) (tid : String) (uid : Nat) : Option Task :=
  store.find? (fun t => t.id == tid && t.userId == uid)

/-- Handler for `GET /tasks/:id`: ownership-scoped lookup; missing task is
404, malformed id is the `CastError` branch (400). -/
def getById (store : List Task) (uid : Nat) (idParam : String) : TaskResp :=
  if !isValidObjectId idParam then .fail 400 "Invalid task ID"
  else
    match findOwned store idParam uid with
    | none => .fail 404 "Task not found"
    | some t => .ok 200 t

/-- The document built by the `new Task({...})` constructor call in
`POST /tasks`: trimmed title, description trimmed or defaulted to `''`,
the parsed due date, `status || 'pending'`, `priority || 'medium'`, and
the caller as owner. -/
def newTaskDoc (newId : String) (uid : Nat) (b : Body) (d : Int) : Task :=
  { id := newId
    userId := uid
    title := jsTrim (b.title.getD "")
    description := if truthy b.description then jsTrim (b.description.getD "") else ""
    dueDate := d
    status := if truthy b.status then b.status.getD "" else "pending"
    priority := if truthy b.priority then b.priority.getD "" else "medium" }

/-- Handler for `POST /tasks`: requires truthy title and dueDate, parses
the due date, builds the new document, then saves. A schema validation
failure at `save()` is caught by the route's generic catch block and
surfaces as 500. Returns the response together with the store after the
call. -/
def createTask (parseDate : String → Option Int) (newId : String)
    (store : List Task) (uid : Nat) (b : Body) : TaskResp × List Task :=
  if !truthy b.title || !truthy b.dueDate then
    (.fail 400 "Title and due date are required", store)
  else
    match parseDate (b.dueDate.getD "") with
    | none => (.fail 400 "Invalid due date format", store)
    | some d =>
      let t : Task := newTaskDoc newId uid b d
      if validateTask t then (.ok 201 t, store ++ [t])
      else (.fail 500 "Server error while creating task", store)

/-- The `PUT /tasks/:id` field-overwrite block: each of title, status and
priority is overwritten only when truthy (so a provided empty string is
skipped), while description is overwritten whenever it is not
`undefined`; title and description are trimmed. -/
def applyFieldUpdates (b : Body) (task : Task) : Task :=
  let t1 := if truthy b.title then { task with title := jsTrim (b.title.getD "") } else task
  let t2 := if b.description != none then { t1 with description := jsTrim (b.description.getD "") } else t1
  let t3 := if truthy b.status then { t2 with status := b.status.getD "" } else t2
  if truthy b.priority then { t3 with priority := b.priority.getD "" } else t3

/-- Persisting a modified document with `save()`: the document replaces
the stored version with its id if schema validation passes; a validation
failure is caught by the route's generic catch block (500) and leaves the
store unchanged. -/
def saveUpdated (errMsg : String) (store : List Task) (t' : Task) : TaskResp × List Task :=
  if validateTask t' then
    (.ok 200 t', store.map (fun u => if u.id == t'.id then t' else u))
  else (.fail 500 errMsg, store)

/-- Handler for `PUT /tasks/:id`: malformed id is the `CastError` branch
(400); ownership-scoped lookup or 404; a truthy dueDate is re-validated
(400 when unparsable) and set; then the field-overwrite block runs and the
document is saved. -/
def updateTask (parseDate : String → Option Int) (store : List Task)
    (uid : Nat) (idParam : String) (b : Body) : TaskResp × List Task :=
  if !isValidObjectId idParam then (.fail 400 "Invalid task ID", store)
  else
    match findOwned store idParam uid with
    | none => (.fail 404 "Task not found", store)
    | some task =>
      if truthy b.dueDate then
        match parseDate (b.dueDate.getD "") with
        | none => (.fail 400 "Invalid due date format", store)
        | some d =>
          saveUpdated "Server error while updating task" store
            (applyFieldUpdates b { task with dueDate := d })
      else
        saveUpdated "Server error while updating task" store
          (applyFieldUpdates b task)

/-- Handler for `DELETE /tasks/:id`: malformed id is the `CastError`
branch (400); `findOneAndDelete` removes the first task matching both id
and owner, or 404. -/
def deleteTask (store : List Task) (uid : Nat) (idParam : String) :
    TaskResp × List Task :=
  if !isValidObjectId idParam then (.fail 400 "Invalid task ID", store)
  else
    match findOwned store idParam uid with
    | none => (.fail 404 "Task not found", store)
    | some t =>
      (.ok 200 t, store.eraseP (fun u => u.id == idParam && u.userId == uid))

/-- Handler for `PATCH /tasks/:id/status`: a falsy status is rejected
(400) before the query runs; then `findOneAndUpdate` with
`runValidators: true` casts the id (`CastError` branch, 400), runs the
update validators on the `status` path (a value outside the enum rejects
with a `ValidationError`, which the route's catch block turns into 500),
and updates the ownership-scoped match or returns 404. -/
def updateStatus (store : List Task) (uid : Nat) (idParam : String)
    (statusArg : Option String) : TaskResp × List Task :=
  if !truthy statusArg then (.fail 400 "Status is required", store)
  else
    let s := statusArg.getD ""
    if !isValidObjectId idParam then (.fail 400 "Invalid task ID", store)
    else if !statusEnum.contains s then
      (.fail 500 "Server error while updating task status", store)
    else
      match findOwned store idParam uid with
      | none => (.fail 404 "Task not found", store)
      | some t =>
        let t' := { t with status := s }
        (.ok 200 t', store.map (fun u => if u.id == t.id then t' else u))

/-- A value of a task field as used for sorting, following the BSON
ordering used by MongoDB within this application: numeric values sort
below string values. -/
inductive FieldVal where
  | intV (n : Int)
  | strV (s : String)
deriving Repr, DecidableEq

/-- Field access by name on a task document, as MongoDB's sort key
extraction sees it: a known field yields its value and an unknown field
name is missing (`none`) on every document. -/
def Task.getField (t : Task) : String → Option FieldVal
  | "_id" => some (.strV t.id)
  | "userId" => some (.intV (Int.ofNat t.userId))
  | "title" => some (.strV t.title)
  | "description" => some (.strV t.description)
  | "dueDate" => some (.intV t.dueDate)
  | "status" => some (.strV t.status)
  | "priority" => some (.strV t.priority)
  | _ => none

/-- Comparison on optional field values in BSON key order: missing values
sort first, numbers before strings, each compared by its own order. -/
def fvLe : Option FieldVal → Option FieldVal → Bool
  | none, _ => true
  | some _, none => false
  | some (.intV a), some (.intV b) => a ≤ b
  | some (.intV _), some (.strV _) => true
  | some (.strV _), some (.intV _) => false
  | some (.strV a), some (.strV b) => a ≤ b

/-- Sort comparison on tasks for a sort field and direction: ascending
compares the field values directly and descending flips the comparison
(the `-1` sort direction). -/
def taskLe (field : String) (descending : Bool) (a b : Task) : Bool :=
  if descending then fvLe (Task.getField b field) (Task.getField a field)
  else fvLe (Task.getField a field) (Task.getField b field)

/-- Query parameters of `GET /tasks`; each is `none` when the query key is
absent. -/
structure ListParams where
  status : Option String := none
  sortBy : Option String := none
  order : Option String := none
deriving Repr, DecidableEq

/-- The match predicate built by `GET /tasks`: owner scoping always, plus
the status filter only when the status query value is truthy. -/
def listMatches (uid : Nat) (p : ListParams) (t : Task) : Bool :=
  t.userId == uid && (!truthy p.status || t.status == p.status.getD "")

/-- Handler for `GET /tasks`: destructuring defaults give `sortBy`
`'dueDate'` and `order` `'asc'` when absent; the sort direction is
descending exactly when `order === 'desc'`; the matching tasks are
returned sorted by the requested field, whose name is taken verbatim with
no allow-list. -/
def listTasks (store : List Task) (uid : Nat) (p : ListParams) : List Task :=
  let sortBy := p.sortBy.getD "dueDate"
  let descending := p.order.getD "asc" == "desc"
  (store.filter (listMatches uid p)).insertionSort
    (fun a b => taskLe sortBy descending a b = true)

/-- Outcome of the auth middleware: either the resolved user is attached
to the request and the downstream handler runs, or the request is rejected
with 401 and a reason message. -/
inductive AuthResult where
  | ok (u : User)
  | unauthorized (message : String)
deriving Repr, DecidableEq

/-- Outcome of `jwt.verify`: the decoded user id on success, or the
`JsonWebTokenError` (invalid signature) / `TokenExpiredError` (structurally
valid but expired) failure modes. -/
inductive VerifyResult where
  | ok (userId : Nat)
  | invalidSignature
  | expired
deriving Repr, DecidableEq

/-- The auth middleware: a falsy Authorization header is rejected as
missing; a header not starting with `"Bearer "` is rejected as bad
format; the token is the substring after the 7-character prefix, and an
empty token is rejected with the same missing-token message; `jwt.verify`
failures map to the two distinct catch-block reasons; a decoded id that
resolves to no user is rejected; otherwise the resolved user is attached. -/
def authMiddleware (verify : String → VerifyResult) (users : List User)
    (authHeader : Option String) : AuthResult :=
  if !truthy authHeader then
    .unauthorized "No token provided, authorization denied"
  else
    let h := authHeader.getD ""
    if !strStartsWith h "Bearer " then .unauthorized "Invalid token format"
    else
      let token := strDrop h 7
      if token == "" then
        .unauthorized "No token provided, authorization denied"
      else
        match verify token with
        | .invalidSignature => .unauthorized "Token is not valid"
        | .expired => .unauthorized "Token has expired"
        | .ok uid =>
          match users.find? (fun u => u.id == uid) with
          | none => .unauthorized "Token is not valid"
          | some u => .ok u

/-- Schema admissibility of the fields supplied in an update body: each
field that the `PUT /tasks/:id` handler would actually write satisfies
the schema constraints checked at `save()`. -/
def bodyFieldsValid (b : Body) : Bool :=
  (!truthy b.title || (jsTrim (b.title.getD "") != "" && (jsTrim (b.title.getD "")).length ≤ 200)) &&
  (b.description == none || (jsTrim (b.description.getD "")).length ≤ 1000) &&
  (!truthy b.status || statusEnum.contains (b.status.getD "")) &&
  (!truthy b.priority || priorityEnum.contains (b.priority.getD ""))

/-- A well-formed ObjectId string used by concrete instances. -/
def tidA : String := "aaaaaaaaaaaaaaaaaaaaaaaa"

/-- A second well-formed ObjectId string used by concrete instances. -/
def tidB : String := "bbbbbbbbbbbbbbbbbbbbbbbb"

/-- A concrete stored task used by concrete instances. -/
def taskA : Task :=
  { id := tidA, userId := 1, title := "old", description := "d",
    dueDate := 5, status := "pending", priority := "medium" }

/-- A second concrete stored task used by concrete instances. -/
def taskB : Task :=
  { id := tidB, userId := 1, title := "z", description := "",
    dueDate := 3, status := "completed", priority := "high" }

/-- A concrete date parser used by concrete instances: recognises a single
date string. -/
def pdEx : String → Option Int :=
  fun s => if s == "2030-01-01" then some 100 else none

/-- A concrete token verifier used by concrete instances. -/
def verifyEx : String → VerifyResult :=
  fun tok =>
    if tok == "sig-bad" then .invalidSignature
    else if tok == "old-token" then .expired
    else if tok == "good" then .ok 7
    else .ok 0

/-- A concrete user table used by concrete instances. -/
def usersEx : List User := [{ id := 7, username := "alice", email := "alice@x.com" }]

/-! ## Helper lemmas -/

theorem id_eq_of_nodup (store : List Task)
    (hnd : (store.map Task.id).Nodup) :
    ∀ u ∈ store, ∀ v ∈ store, u.id = v.id → u = v :=
  fun _ hu _ hv h => List.inj_on_of_nodup_map hnd hu hv h

theorem findOwned_none_of_foreign (store : List Task) (t : Task) (caller : Nat)
    (hnd : (store.map Task.id).Nodup) (ht : t ∈ store) (hne : t.userId ≠ caller) :
    findOwned store t.id caller = none := by
  rw [findOwned, List.find?_eq_none]
  intro u hu hp
  simp only [Bool.and_eq_true, beq_iff_eq] at hp
  exact hne (id_eq_of_nodup store hnd u hu t ht hp.1 ▸ hp.2)

theorem findOwned_cons (u : Task) (rest : List Task) (tid : String) (uid : Nat) :
    findOwned (u :: rest) tid uid =
      if u.id == tid && u.userId == uid then some u else findOwned rest tid uid := by
  rw [findOwned, findOwned, List.find?_cons]
  by_cases h : (u.id == tid && u.userId == uid) = true
  · simp [h]
  · rw [Bool.not_eq_true] at h
    simp [h]

theorem findOwned_some_self (t : Task) (caller : Nat) :
    ∀ store : List Task, (store.map Task.id).Nodup → t ∈ store → t.userId = caller →
    findOwned store t.id caller = some t := by
  intro store
  induction store with
  | nil => intro _ ht _; cases ht
  | cons u rest ih =>
    intro hnd ht howner
    rw [findOwned_cons]
    by_cases hp : (u.id == t.id && u.userId == caller) = true
    · have hid : u.id = t.id := by
        simp only [Bool.and_eq_true, beq_iff_eq] at hp
        exact hp.1
      have : u = t :=
        id_eq_of_nodup (u :: rest) hnd u (List.mem_cons_self u rest) t ht hid
      rw [if_pos hp, this]
    · have htr : t ∈ rest := by
        rcases List.mem_cons.mp ht with h | h
        · exfalso
          apply hp
          simp [h.symm, howner]
        · exact h
      have hndr : (rest.map Task.id).Nodup := by
        simpa using (List.nodup_cons.mp (by simpa using hnd)).2
      rw [if_neg hp]
      exact ih hndr htr howner

theorem findOwned_map_replace (t' : Task) (tid : String) (caller : Nat)
    (hid : t'.id = tid) (howner : t'.userId = caller) :
    ∀ store : List Task, (∃ u ∈ store, u.id = tid) →
    findOwned (store.map fun u => if u.id == tid then t' else u) tid caller = some t' := by
  intro store
  induction store with
  | nil => rintro ⟨u, hu, _⟩; cases hu
  | cons u rest ih =>
    intro hex
    by_cases hu : u.id = tid
    · have hrepl : (if (u.id == tid) = true then t' else u) = t' := by simp [hu]
      have hp : (t'.id == tid && t'.userId == caller) = true := by simp [hid, howner]
      simp only [List.map_cons, hrepl]
      rw [findOwned_cons, if_pos hp]
    · have hrepl : (if (u.id == tid) = true then t' else u) = u := by simp [hu]
      have hp : ¬(u.id == tid && u.userId == caller) = true := by simp [hu]
      have hexr : ∃ v ∈ rest, v.id = tid := by
        rcases hex with ⟨v, hv, hvid⟩
        rcases List.mem_cons.mp hv with h | h
        · exact absurd (h ▸ hvid) hu
        · exact ⟨v, h, hvid⟩
      simp only [List.map_cons, hrepl]
      rw [findOwned_cons, if_neg hp]
      exact ih hexr

theorem replace_comp_self (tid : String) (t' : Task) (h : t'.id = tid) :
    ((fun u => if u.id == tid then t' else u) ∘ fun u : Task => if u.id == tid then t' else u)
      = fun u : Task => if u.id == tid then t' else u := by
  funext u
  by_cases hu : u.id = tid
  · simp [Function.comp, hu, h]
  · simp [Function.comp, hu]

theorem applyFieldUpdates_fixed (b : Body) (t : Task) :
    (applyFieldUpdates b t).id = t.id ∧ (applyFieldUpdates b t).userId = t.userId ∧
    (applyFieldUpdates b t).dueDate = t.dueDate := by
  by_cases h1 : truthy b.title = true <;>
    by_cases h2 : (b.description != none) = true <;>
    by_cases h3 : truthy b.status = true <;>
    by_cases h4 : truthy b.priority = true <;>
    simp [applyFieldUpdates, h1, h2, h3, h4]

theorem applyFieldUpdates_fields (b : Body) (t : Task) :
    (applyFieldUpdates b t).title
        = (if truthy b.title then jsTrim (b.title.getD "") else t.title) ∧
    (applyFieldUpdates b t).description
        = (if b.description != none then jsTrim (b.description.getD "") else t.description) ∧
    (applyFieldUpdates b t).status
        = (if truthy b.status then b.status.getD "" else t.status) ∧
    (applyFieldUpdates b t).priority
        = (if truthy b.priority then b.priority.getD "" else t.priority) := by
  by_cases h1 : truthy b.title = true <;>
    by_cases h2 : (b.description != none) = true <;>
    by_cases h3 : truthy b.status = true <;>
    by_cases h4 : truthy b.priority = true <;>
    simp [applyFieldUpdates, h1, h2, h3, h4]

theorem validateTask_applyFieldUpdates (b : Body) (t : Task)
    (ht : validateTask t = true) (hb : bodyFieldsValid b = true) :
    validateTask (applyFieldUpdates b t) = true := by
  obtain ⟨hT, hD, hS, hP⟩ := applyFieldUpdates_fields b t
  simp only [bodyFieldsValid, Bool.and_eq_true, Bool.or_eq_true] at hb
  simp only [validateTask, Bool.and_eq_true] at ht ⊢
  rw [hT, hD, hS, hP]
  obtain ⟨⟨⟨⟨ht1, ht2⟩, ht3⟩, ht4⟩, ht5⟩ := ht
  obtain ⟨⟨⟨hb1, hb2⟩, hb3⟩, hb4⟩ := hb
  refine ⟨⟨⟨⟨?_, ?_⟩, ?_⟩, ?_⟩, ?_⟩
  · rcases hb1 with h | h
    · simp only [Bool.not_eq_eq_eq_not, Bool.not_true] at h
      simp [h, ht1]
    · by_cases hc : truthy b.title = true <;> simp_all
  · rcases hb1 with h | h
    · simp only [Bool.not_eq_eq_eq_not, Bool.not_true] at h
      simp [h, ht2]
    · by_cases hc : truthy b.title = true <;> simp_all
  · rcases hb2 with h | h
    · have : b.description = none := by simpa using h
      simp [this, ht3]
    · by_cases hc : (b.description != none) = true <;> simp_all
  · rcases hb3 with h | h
    · simp only [Bool.not_eq_eq_eq_not, Bool.not_true] at h
      simp only [h, Bool.false_eq_true, if_false]
      exact ht4
    · by_cases hc : truthy b.status = true <;> simp_all
  · rcases hb4 with h | h
    · simp only [Bool.not_eq_eq_eq_not, Bool.not_true] at h
      simp only [h, Bool.false_eq_true, if_false]
      exact ht5
    · by_cases hc : truthy b.priority = true <;> simp_all

theorem fvLe_total : ∀ x y : Option FieldVal, fvLe x y = true ∨ fvLe y x = true := by
  intro x y
  match x, y with
  | none, _ => left; rfl
  | some v, none => right; rfl
  | some (.intV a), some (.intV b) =>
    simp only [fvLe, decide_eq_true_eq]
    exact Int.le_total a b
  | some (.intV _), some (.strV _) => left; rfl
  | some (.strV _), some (.intV _) => right; rfl
  | some (.strV a), some (.strV b) =>
    simp only [fvLe, decide_eq_true_eq]
    exact le_total a b

theorem fvLe_trans : ∀ x y z : Option FieldVal,
    fvLe x y = true → fvLe y z = true → fvLe x z = true := by
  intro x y z hxy hyz
  match x, y, z with
  | none, _, _ => rfl
  | some _, none, _ => exact absurd hxy (by simp [fvLe])
  | some _, some _, none => exact absurd hyz (by simp [fvLe])
  | some (.intV a), some (.intV b), some (.intV c) =>
    simp only [fvLe, decide_eq_true_eq] at hxy hyz ⊢
    exact le_trans hxy hyz
  | some (.intV _), some (.intV _), some (.strV _) => rfl
  | some (.intV _), some (.strV _), some (.intV _) => exact absurd hyz (by simp [fvLe])
  | some (.intV _), some (.strV _), some (.strV _) => rfl
  | some (.strV _), some (.intV _), some _ => exact absurd hxy (by simp [fvLe])
  | some (.strV _), some (.strV _), some (.intV _) => exact absurd hyz (by simp [fvLe])
  | some (.strV a), some (.strV b), some (.strV c) =>
    simp only [fvLe, decide_eq_true_eq] at hxy hyz ⊢
    exact le_trans hxy hyz

theorem taskLe_total (f : String) (d : Bool) :
    ∀ a b : Task, taskLe f d a b = true ∨ taskLe f d b a = true := by
  intro a b
  cases d <;> simp only [taskLe, if_true, if_false, Bool.false_eq_true] <;>
    exact fvLe_total _ _

theorem taskLe_trans (f : String) (d : Bool) :
    ∀ a b c : Task, taskLe f d a b = true → taskLe f d b c = true →
    taskLe f d a c = true := by
  intro a b c hab hbc
  cases d <;> simp only [taskLe, if_true, if_false, Bool.false_eq_true] at hab hbc ⊢
  · exact fvLe_trans _ _ _ hab hbc
  · exact fvLe_trans _ _ _ hbc hab

theorem bearer_header_nonempty (h : String)
    (hss : strStartsWith h "Bearer " = true) : truthy (some h) = true := by
  by_cases he : h = ""
  · subst he
    exact absurd hss (by decide)
  · simp [truthy, he]

/-! ## Claim theorems -/

/-- C2: the Auth Gate rejects with 401 when the Authorization header is
absent, when it is not in `Bearer` shape, when the token's signature is
invalid (one reason message), when the token is structurally valid but
expired (a distinct reason message), and when the decoded user id
resolves to no existing user; the resolved user is attached and the
downstream operation runs only when every check passes. -/
theorem auth_gate_contract (verify : String → VerifyResult) (users : List User) :
    authMiddleware verify users none
        = .unauthorized "No token provided, authorization denied"
  ∧ (∀ h : String, h ≠ "" → strStartsWith h "Bearer " = false →
      authMiddleware verify users (some h) = .unauthorized "Invalid token format")
  ∧ (∀ h : String, strStartsWith h "Bearer " = true → strDrop h 7 ≠ "" →
      verify (strDrop h 7) = .invalidSignature →
      authMiddleware verify users (some h) = .unauthorized "Token is not valid")
  ∧ (∀ h : String, strStartsWith h "Bearer " = true → strDrop h 7 ≠ "" →
      verify (strDrop h 7) = .expired →
      authMiddleware verify users (some h) = .unauthorized "Token has expired")
  ∧ ("Token is not valid" : String) ≠ "Token has expired"
  ∧ (∀ (h : String) (uid : Nat), strStartsWith h "Bearer " = true → strDrop h 7 ≠ "" →
      verify (strDrop h 7) = .ok uid → users.find? (fun u => u.id == uid) = none →
      authMiddleware verify users (some h) = .unauthorized "Token is not valid")
  ∧ (∀ (header : Option String) (u : User),
      authMiddleware verify users header = .ok u →
      ∃ h : String, header = some h ∧ strStartsWith h "Bearer " = true ∧
        strDrop h 7 ≠ "" ∧ verify (strDrop h 7) = .ok u.id ∧ u ∈ users) := by
  refine ⟨rfl, ?_, ?_, ?_, by decide, ?_, ?_⟩
  · intro h hne hss
    have htr : truthy (some h) = true := by simp [truthy, hne]
    simp [authMiddleware, htr, hss]
  · intro h hss hne hv
    have htr := bearer_header_nonempty h hss
    have hne' : (strDrop h 7 == "") = false := by simpa using hne
    simp [authMiddleware, htr, hss, hne', hv]
  · intro h hss hne hv
    have htr := bearer_header_nonempty h hss
    have hne' : (strDrop h 7 == "") = false := by simpa using hne
    simp [authMiddleware, htr, hss, hne', hv]
  · intro h uid hss hne hv hf
    have htr := bearer_header_nonempty h hss
    have hne' : (strDrop h 7 == "") = false := by simpa using hne
    simp [authMiddleware, htr, hss, hne', hv, hf]
  · intro header u hok
    rcases header with _ | h
    · simp [authMiddleware, truthy] at hok
    · by_cases h1 : truthy (some h) = true
      swap
      · simp [authMiddleware, h1] at hok
      by_cases h2 : strStartsWith h "Bearer " = true
      swap
      · simp [authMiddleware, h1, h2] at hok
      by_cases h3 : (strDrop h 7 == "") = true
      · simp [authMiddleware, h1, h2, h3] at hok
      cases hv : verify (strDrop h 7) with
      | invalidSignature => simp [authMiddleware, h1, h2, h3, hv] at hok
      | expired => simp [authMiddleware, h1, h2, h3, hv] at hok
      | ok uid =>
        cases hf : users.find? (fun u => u.id == uid) with
        | none => simp [authMiddleware, h1, h2, h3, hv, hf] at hok
        | some u' =>
          have hu' : u' = u := by
            simp [authMiddleware, h1, h2, h3, hv, hf] at hok
            exact hok
          subst hu'
          have hpred := List.find?_some hf
          have hid : u'.id = uid := by simpa using hpred
          refine ⟨h, rfl, h2, by simpa using h3, ?_, List.mem_of_find?_eq_some hf⟩
          rw [hid]
          exact hv

/-- C10: an Authorization header that is exactly `"Bearer "` (empty token
after the prefix) is rejected with the same missing-token reason as an
absent header, not the invalid-format or invalid-token reason. -/
theorem bearer_empty_token_as_missing (verify : String → VerifyResult)
    (users : List User) :
    authMiddleware verify users (some "Bearer ")
        = .unauthorized "No token provided, authorization denied"
  ∧ authMiddleware verify users (some "Bearer ")
        = authMiddleware verify users none := by
  constructor <;> rfl

/-- Concrete instance of the Auth Gate contract: every rejection branch
exercised on explicit headers, tokens and user table. -/
theorem auth_gate_contract_witness :
    authMiddleware verifyEx usersEx none
        = .unauthorized "No token provided, authorization denied"
  ∧ authMiddleware verifyEx usersEx (some "Basic abc")
        = .unauthorized "Invalid token format"
  ∧ authMiddleware verifyEx usersEx (some "Bearer sig-bad")
        = .unauthorized "Token is not valid"
  ∧ authMiddleware verifyEx usersEx (some "Bearer old-token")
        = .unauthorized "Token has expired"
  ∧ authMiddleware verifyEx usersEx (some "Bearer ghost")
        = .unauthorized "Token is not valid" := by
  have hc := auth_gate_contract verifyEx usersEx
  refine ⟨hc.1, ?_, ?_, ?_, ?_⟩
  · exact hc.2.1 "Basic abc" (by decide) (by decide)
  · exact hc.2.2.1 "Bearer sig-bad" (by decide) (by decide) (by decide)
  · exact hc.2.2.2.1 "Bearer old-token" (by decide) (by decide) (by decide)
  · exact hc.2.2.2.2.2.1 "Bearer ghost" 0 (by decide) (by decide) (by decide) (by decide)

/-- C1: for any task whose owner differs from the authenticated caller,
`GET /tasks/:id` answers 404 (never 200, never 403), and the update,
delete and status-update handlers answer 404 and leave the store
untouched; the status-update handler never modifies a foreign-owned
task on any input. -/
theorem ownership_scoping (parseDate : String → Option Int) (store : List Task)
    (t : Task) (caller : Nat) (b : Body) (s : Option String)
    (hnd : (store.map Task.id).Nodup) (ht : t ∈ store)
    (hforeign : t.userId ≠ caller) (hvalid : isValidObjectId t.id = true) :
    getById store caller t.id = .fail 404 "Task not found"
  ∧ (getById store caller t.id).code ≠ 200
  ∧ (getById store caller t.id).code ≠ 403
  ∧ updateTask parseDate store caller t.id b = (.fail 404 "Task not found", store)
  ∧ deleteTask store caller t.id = (.fail 404 "Task not found", store)
  ∧ (truthy s = true → statusEnum.contains (s.getD "") = true →
      updateStatus store caller t.id s = (.fail 404 "Task not found", store))
  ∧ (updateStatus store caller t.id s).2 = store := by
  have hnone := findOwned_none_of_foreign store t caller hnd ht hforeign
  have hget : getById store caller t.id = .fail 404 "Task not found" := by
    simp [getById, hvalid, hnone]
  refine ⟨hget, by rw [hget]; decide, by rw [hget]; decide, ?_, ?_, ?_, ?_⟩
  · simp [updateTask, hvalid, hnone]
  · simp [deleteTask, hvalid, hnone]
  · intro hs henum
    have hmem : s.getD "" ∈ statusEnum := by simpa using henum
    simp [updateStatus, hs, hvalid, hmem, hnone]
  · by_cases hs : truthy s = true
    · by_cases henum : s.getD "" ∈ statusEnum
      · simp [updateStatus, hs, hvalid, henum, hnone]
      · simp [updateStatus, hs, hvalid, henum]
    · simp [updateStatus, hs]

/-- Concrete instance of the ownership invariant: user 2 probing user 1's
task by its real id. -/
theorem ownership_scoping_witness :
    getById [taskA] 2 taskA.id = .fail 404 "Task not found"
  ∧ updateTask pdEx [taskA] 2 taskA.id {} = (.fail 404 "Task not found", [taskA])
  ∧ deleteTask [taskA] 2 taskA.id = (.fail 404 "Task not found", [taskA])
  ∧ updateStatus [taskA] 2 taskA.id (some "completed")
      = (.fail 404 "Task not found", [taskA]) := by
  have hc := ownership_scoping pdEx [taskA] taskA 2 {} (some "completed")
    (by decide) (by decide) (by decide) (by decide)
  exact ⟨hc.1, hc.2.2.2.1, hc.2.2.2.2.1, hc.2.2.2.2.2.1 (by decide) (by decide)⟩

/-- C6: a request with a malformed `:id` on any of the four single-task
routes gets a 400 response with a message body, never a 500. -/
theorem malformed_id_maps_to_400 (parseDate : String → Option Int)
    (store : List Task) (uid : Nat) (idParam : String) (b : Body)
    (s : Option String) (hbad : isValidObjectId idParam = false) :
    getById store uid idParam = .fail 400 "Invalid task ID"
  ∧ updateTask parseDate store uid idParam b = (.fail 400 "Invalid task ID", store)
  ∧ deleteTask store uid idParam = (.fail 400 "Invalid task ID", store)
  ∧ (updateStatus store uid idParam s).1.code = 400
  ∧ (updateStatus store uid idParam s).1.code ≠ 500 := by
  refine ⟨by simp [getById, hbad], by simp [updateTask, hbad],
    by simp [deleteTask, hbad], ?_, ?_⟩
  · by_cases hs : truthy s = true
    · simp [updateStatus, hs, hbad, TaskResp.code]
    · simp [updateStatus, hs, TaskResp.code]
  · by_cases hs : truthy s = true
    · simp [updateStatus, hs, hbad, TaskResp.code]
    · simp [updateStatus, hs, TaskResp.code]

/-- Concrete instance of identifier normalization: a non-hex id string on
every route. -/
theorem malformed_id_maps_to_400_witness :
    getById [taskA] 1 "not-an-objectid" = .fail 400 "Invalid task ID"
  ∧ updateTask pdEx [taskA] 1 "not-an-objectid" {}
      = (.fail 400 "Invalid task ID", [taskA])
  ∧ deleteTask [taskA] 1 "not-an-objectid" = (.fail 400 "Invalid task ID", [taskA])
  ∧ (updateStatus [taskA] 1 "not-an-objectid" (some "completed")).1.code = 400 := by
  have hc := malformed_id_maps_to_400 pdEx [taskA] 1 "not-an-objectid" {}
    (some "completed") (by decide)
  exact ⟨hc.1, hc.2.1, hc.2.2.1, hc.2.2.2.1⟩

/-- C3 as stated fails on the code: an out-of-enum status on create and on
status update is rejected by the schema, but the routes' catch blocks
have no `ValidationError` branch, so the response is 500, not 400. -/
theorem enum_rejection_counterexample :
    (createTask pdEx tidB [] 1
        { title := some "T", dueDate := some "2030-01-01", status := some "bogus" }).1
      = .fail 500 "Server error while creating task"
  ∧ (createTask pdEx tidB [] 1
        { title := some "T", dueDate := some "2030-01-01", status := some "bogus" }).1.code ≠ 400
  ∧ (updateStatus [taskA] 1 tidA (some "bogus")).1
      = .fail 500 "Server error while updating task status"
  ∧ (updateStatus [taskA] 1 tidA (some "bogus")).1.code ≠ 400 := by
  decide

/-- C3 (amended): status and priority are closed enumerations and
out-of-enum values are rejected, never silently coerced — but the
rejection surfaces as 500 (the schema `ValidationError` reaches the
routes' generic catch blocks), while only a missing status on the status
update yields 400; any task returned with 201 by create carries enum
members. -/
theorem enum_rejection (parseDate : String → Option Int) (newId : String)
    (store : List Task) (uid : Nat) (idParam : String) (b : Body)
    (s : Option String) :
    (∀ d : Int, truthy b.title = true → truthy b.dueDate = true →
      parseDate (b.dueDate.getD "") = some d →
      truthy b.status = true → statusEnum.contains (b.status.getD "") = false →
      createTask parseDate newId store uid b
        = (.fail 500 "Server error while creating task", store))
  ∧ (∀ d : Int, truthy b.title = true → truthy b.dueDate = true →
      parseDate (b.dueDate.getD "") = some d →
      truthy b.priority = true → priorityEnum.contains (b.priority.getD "") = false →
      createTask parseDate newId store uid b
        = (.fail 500 "Server error while creating task", store))
  ∧ (truthy s = true → isValidObjectId idParam = true →
      statusEnum.contains (s.getD "") = false →
      updateStatus store uid idParam s
        = (.fail 500 "Server error while updating task status", store))
  ∧ (truthy s = false →
      updateStatus store uid idParam s = (.fail 400 "Status is required", store))
  ∧ (∀ (t' : Task) (store' : List Task),
      createTask parseDate newId store uid b = (.ok 201 t', store') →
      statusEnum.contains t'.status = true
        ∧ priorityEnum.contains t'.priority = true) := by
  refine ⟨?_, ?_, ?_, ?_, ?_⟩
  · intro d hti hdd hp hst henum
    have hmem : b.status.getD "" ∉ statusEnum := by simpa using henum
    have hv : validateTask (newTaskDoc newId uid b d) = false := by
      simp [validateTask, newTaskDoc, hst, hmem]
    simp [createTask, hti, hdd, hp, hv]
  · intro d hti hdd hp hst henum
    have hmem : b.priority.getD "" ∉ priorityEnum := by simpa using henum
    have hv : validateTask (newTaskDoc newId uid b d) = false := by
      simp [validateTask, newTaskDoc, hst, hmem]
    simp [createTask, hti, hdd, hp, hv]
  · intro hs hid henum
    have hmem : s.getD "" ∉ statusEnum := by simpa using henum
    simp [updateStatus, hs, hid, hmem]
  · intro hs
    simp [updateStatus, hs]
  · intro t' store' heq
    by_cases h1 : (!truthy b.title || !truthy b.dueDate) = true
    · simp [createTask, h1] at heq
    · cases hp : parseDate (b.dueDate.getD "") with
      | none => simp [createTask, h1, hp] at heq
      | some d =>
        by_cases hv : validateTask (newTaskDoc newId uid b d) = true
        · have hdoc : newTaskDoc newId uid b d = t' := by
            have := heq
            simp [createTask, h1, hp, hv, Prod.ext_iff] at this
            exact this.1
          simp only [validateTask, Bool.and_eq_true] at hv
          rw [← hdoc]
          exact ⟨hv.1.2, hv.2⟩
        · simp [createTask, h1, hp, hv] at heq

/-- Concrete instance of the amended enum claim: a bogus status on create
and on status update gets 500, a missing status gets 400. -/
theorem enum_rejection_witness :
    createTask pdEx tidB [taskA] 1
        { title := some "T", dueDate := some "2030-01-01", status := some "bogus" }
      = (.fail 500 "Server error while creating task", [taskA])
  ∧ updateStatus [taskA] 1 tidA (some "bogus")
      = (.fail 500 "Server error while updating task status", [taskA])
  ∧ updateStatus [taskA] 1 tidA none = (.fail 400 "Status is required", [taskA]) := by
  have hc := enum_rejection pdEx tidB [taskA] 1 tidA
    { title := some "T", dueDate := some "2030-01-01", status := some "bogus" }
    (some "bogus")
  refine ⟨hc.1 100 (by decide) (by decide) (by decide) (by decide) (by decide),
    hc.2.2.1 (by decide) (by decide) (by decide), ?_⟩
  have hc' := enum_rejection pdEx tidB [taskA] 1 tidA
    { title := some "T", dueDate := some "2030-01-01", status := some "bogus" } none
  exact hc'.2.2.2.1 (by decide)

/-- C4 as stated fails on the code: a create request with present title
and parsable dueDate but an out-of-enum priority falls into neither of
the claim's two cases — the result is 500 with nothing persisted, not a
400 `ValidationError` and not a 201 with the record persisted. -/
theorem create_contract_counterexample :
    createTask pdEx tidB [] 1
        { title := some "T", dueDate := some "2030-01-01", priority := some "urgent" }
      = (.fail 500 "Server error while creating task", [])
  ∧ (createTask pdEx tidB [] 1
        { title := some "T", dueDate := some "2030-01-01", priority := some "urgent" }).1.code ≠ 400
  ∧ (createTask pdEx tidB [] 1
        { title := some "T", dueDate := some "2030-01-01", priority := some "urgent" }).1.code ≠ 201 := by
  decide

/-- C4 (amended): a create with missing (falsy) title or dueDate, or an
unparsable dueDate, is 400 with the store unchanged; otherwise, when the
built document passes schema validation, the record — trimmed title,
trimmed or empty description, parsed due date, defaults
`status='pending'` / `priority='medium'`, owner set to the caller — is
appended to the store and returned with 201; a document failing schema
validation (e.g. an out-of-enum status or priority) surfaces as 500 with
the store unchanged. -/
theorem create_contract (parseDate : String → Option Int) (newId : String)
    (store : List Task) (uid : Nat) (b : Body) :
    (truthy b.title = false ∨ truthy b.dueDate = false →
      createTask parseDate newId store uid b
        = (.fail 400 "Title and due date are required", store))
  ∧ (truthy b.title = true → truthy b.dueDate = true →
      parseDate (b.dueDate.getD "") = none →
      createTask parseDate newId store uid b
        = (.fail 400 "Invalid due date format", store))
  ∧ (∀ d : Int, truthy b.title = true → truthy b.dueDate = true →
      parseDate (b.dueDate.getD "") = some d →
      validateTask (newTaskDoc newId uid b d) = true →
      createTask parseDate newId store uid b
        = (.ok 201 (newTaskDoc newId uid b d), store ++ [newTaskDoc newId uid b d]))
  ∧ (∀ d : Int, truthy b.title = true → truthy b.dueDate = true →
      parseDate (b.dueDate.getD "") = some d →
      validateTask (newTaskDoc newId uid b d) = false →
      createTask parseDate newId store uid b
        = (.fail 500 "Server error while creating task", store))
  ∧ (∀ d : Int,
      (newTaskDoc newId uid b d).userId = uid
    ∧ (newTaskDoc newId uid b d).title = jsTrim (b.title.getD "")
    ∧ (newTaskDoc newId uid b d).dueDate = d
    ∧ (b.description = none → (newTaskDoc newId uid b d).description = "")
    ∧ (truthy b.description = true →
        (newTaskDoc newId uid b d).description = jsTrim (b.description.getD ""))
    ∧ (b.status = none → (newTaskDoc newId uid b d).status = "pending")
    ∧ (b.priority = none → (newTaskDoc newId uid b d).priority = "medium")) := by
  refine ⟨?_, ?_, ?_, ?_, ?_⟩
  · intro h
    have h1 : (!truthy b.title || !truthy b.dueDate) = true := by
      rcases h with h | h <;> simp [h]
    simp [createTask, h1]
  · intro hti hdd hp
    simp [createTask, hti, hdd, hp]
  · intro d hti hdd hp hv
    simp [createTask, hti, hdd, hp, hv]
  · intro d hti hdd hp hv
    simp [createTask, hti, hdd, hp, hv]
  · intro d
    refine ⟨rfl, rfl, rfl, ?_, ?_, ?_, ?_⟩
    · intro h
      simp [newTaskDoc, h, truthy]
    · intro h
      simp [newTaskDoc, h]
    · intro h
      simp [newTaskDoc, h, truthy]
    · intro h
      simp [newTaskDoc, h, truthy]

/-- Concrete instance of the amended create contract: a valid create
appends and returns the defaulted record; missing title and unparsable
dueDate are 400 with the store unchanged. -/
theorem create_contract_witness :
    createTask pdEx tidB [taskA] 1 { title := some " T ", dueDate := some "2030-01-01" }
      = (.ok 201 { id := tidB, userId := 1, title := "T", description := "",
                   dueDate := 100, status := "pending", priority := "medium" },
         [taskA, { id := tidB, userId := 1, title := "T", description := "",
                   dueDate := 100, status := "pending", priority := "medium" }])
  ∧ createTask pdEx tidB [taskA] 1 { dueDate := some "2030-01-01" }
      = (.fail 400 "Title and due date are required", [taskA])
  ∧ createTask pdEx tidB [taskA] 1 { title := some "T", dueDate := some "nope" }
      = (.fail 400 "Invalid due date format", [taskA]) := by
  refine ⟨?_, ?_, ?_⟩
  · have hc := create_contract pdEx tidB [taskA] 1
      { title := some " T ", dueDate := some "2030-01-01" }
    have := hc.2.2.1 100 (by decide) (by decide) (by decide) (by decide)
    exact this
  · have hc := create_contract pdEx tidB [taskA] 1 { dueDate := some "2030-01-01" }
    exact hc.1 (Or.inl (by decide))
  · have hc := create_contract pdEx tidB [taskA] 1
      { title := some "T", dueDate := some "nope" }
    exact hc.2.1 (by decide) (by decide) (by decide)

/-- C5 as stated fails on the code: a title provided as the empty string
is a provided field, yet the update leaves the stored title unchanged
(the handler guards each of title/status/priority with truthiness), so
update does not overwrite exactly the provided fields. -/
theorem update_exact_overwrite_counterexample :
    (updateTask pdEx [taskA] 1 taskA.id { title := some "" }).1 = .ok 200 taskA
  ∧ taskA.title = "old"
  ∧ taskA.title ≠ ""
  ∧ taskA.title ≠ jsTrim "" := by
  decide

/-- C5 (amended): update loads the owned task or 404s; a provided truthy
dueDate is re-validated (400 when unparsable) and overwritten; title,
status and priority are overwritten only when provided truthy, while
description is overwritten whenever provided — including as the empty
string — and absent fields are left untouched; in particular a body of
only `description: ""` clears the description and preserves every other
field. -/
theorem update_contract (parseDate : String → Option Int) (store : List Task)
    (t : Task) (caller : Nat) (b : Body)
    (hnd : (store.map Task.id).Nodup) (ht : t ∈ store)
    (howner : t.userId = caller) (hvalid : isValidObjectId t.id = true)
    (hdoc : validateTask t = true) (hb : bodyFieldsValid b = true) :
    (truthy b.dueDate = true → parseDate (b.dueDate.getD "") = none →
      updateTask parseDate store caller t.id b
        = (.fail 400 "Invalid due date format", store))
  ∧ (truthy b.dueDate = false →
      updateTask parseDate store caller t.id b
        = (.ok 200 (applyFieldUpdates b t),
           store.map (fun u => if u.id == t.id then applyFieldUpdates b t else u)))
  ∧ (∀ d : Int, truthy b.dueDate = true → parseDate (b.dueDate.getD "") = some d →
      updateTask parseDate store caller t.id b
        = (.ok 200 (applyFieldUpdates b { t with dueDate := d }),
           store.map (fun u =>
             if u.id == t.id then applyFieldUpdates b { t with dueDate := d } else u)))
  ∧ (b.title = none → (applyFieldUpdates b t).title = t.title)
  ∧ (b.description = none → (applyFieldUpdates b t).description = t.description)
  ∧ (b.status = none → (applyFieldUpdates b t).status = t.status)
  ∧ (b.priority = none → (applyFieldUpdates b t).priority = t.priority)
  ∧ (b.description = some "" → (applyFieldUpdates b t).description = "")
  ∧ updateTask parseDate store caller t.id { description := some "" }
      = (.ok 200 { t with description := "" },
         store.map (fun u => if u.id == t.id then { t with description := "" } else u)) := by
  have hfind := findOwned_some_self t caller store hnd ht howner
  have hfix := applyFieldUpdates_fixed b t
  have hfields := applyFieldUpdates_fields b t
  refine ⟨?_, ?_, ?_, ?_, ?_, ?_, ?_, ?_, ?_⟩
  · intro hdd hp
    simp [updateTask, hvalid, hfind, hdd, hp]
  · intro hdd
    have hsave := validateTask_applyFieldUpdates b t hdoc hb
    simp [updateTask, hvalid, hfind, hdd, saveUpdated, hsave, hfix.1]
  · intro d hdd hp
    have hval' : validateTask { t with dueDate := d } = true := hdoc
    have hsave := validateTask_applyFieldUpdates b { t with dueDate := d } hval' hb
    have hfix' := applyFieldUpdates_fixed b { t with dueDate := d }
    simp [updateTask, hvalid, hfind, hdd, hp, saveUpdated, hsave, hfix'.1]
  · intro h
    rw [hfields.1]
    simp [h, truthy]
  · intro h
    rw [hfields.2.1]
    simp [h]
  · intro h
    rw [hfields.2.2.1]
    simp [h, truthy]
  · intro h
    rw [hfields.2.2.2]
    simp [h, truthy]
  · intro h
    rw [hfields.2.1]
    simp [h, truthy]
    decide
  · have hj : jsTrim "" = "" := by decide
    have happly : applyFieldUpdates { description := some "" } t
        = { t with description := "" } := by
      simp [applyFieldUpdates, truthy, hj]
    have hval0 : validateTask { t with description := "" } = true := by
      have hd := hdoc
      simp only [validateTask, Bool.and_eq_true, decide_eq_true_eq] at hd ⊢
      refine ⟨⟨⟨⟨hd.1.1.1.1, hd.1.1.1.2⟩, ?_⟩, hd.1.2⟩, hd.2⟩
      show "".length ≤ 1000
      decide
    simp [updateTask, hvalid, hfind, truthy, happly, saveUpdated, hval0]

/-- Concrete instance of the amended update contract: a body of only
`description: ""` clears the description and preserves the other fields,
and an unparsable provided dueDate is rejected with 400. -/
theorem update_contract_witness :
    updateTask pdEx [taskA] 1 taskA.id { description := some "" }
      = (.ok 200 { taskA with description := "" }, [{ taskA with description := "" }])
  ∧ updateTask pdEx [taskA] 1 taskA.id { dueDate := some "nope" }
      = (.fail 400 "Invalid due date format", [taskA]) := by
  constructor
  · have hc := update_contract pdEx [taskA] taskA 1 { description := some "" }
      (by decide) (by decide) (by decide) (by decide) (by decide) (by decide)
    exact hc.2.2.2.2.2.2.2.2
  · have hc := update_contract pdEx [taskA] taskA 1 { dueDate := some "nope" }
      (by decide) (by decide) (by decide) (by decide) (by decide) (by decide)
    exact hc.1 (by decide) (by decide)

/-- C9: an update whose title (or status, or priority) is provided as the
empty string behaves exactly as though the field were absent — the stored
field is not validated, overwritten or rejected, and the call still
succeeds with 200; only description distinguishes provided-empty from
absent. -/
theorem empty_string_fields_ignored (parseDate : String → Option Int)
    (store : List Task) (caller : Nat) (idParam : String) (b : Body) (t : Task)
    (hnd : (store.map Task.id).Nodup) (ht : t ∈ store)
    (howner : t.userId = caller) (hvalid : isValidObjectId t.id = true)
    (hdoc : validateTask t = true) :
    updateTask parseDate store caller idParam { b with title := some "" }
      = updateTask parseDate store caller idParam { b with title := none }
  ∧ updateTask parseDate store caller idParam { b with status := some "" }
      = updateTask parseDate store caller idParam { b with status := none }
  ∧ updateTask parseDate store caller idParam { b with priority := some "" }
      = updateTask parseDate store caller idParam { b with priority := none }
  ∧ (updateTask parseDate store caller t.id { title := some "" }).1 = .ok 200 t
  ∧ (updateTask parseDate store caller t.id { status := some "" }).1 = .ok 200 t
  ∧ (updateTask parseDate store caller t.id { priority := some "" }).1 = .ok 200 t
  ∧ (updateTask parseDate store caller t.id { description := some "" }).1
      = .ok 200 { t with description := "" } := by
  have hfind := findOwned_some_self t caller store hnd ht howner
  refine ⟨?_, ?_, ?_, ?_, ?_, ?_, ?_⟩
  · have h1 : ∀ task : Task, applyFieldUpdates { b with title := some "" } task
        = applyFieldUpdates { b with title := none } task := by
      intro task
      simp [applyFieldUpdates, truthy]
    simp only [updateTask, h1]
  · have h1 : ∀ task : Task, applyFieldUpdates { b with status := some "" } task
        = applyFieldUpdates { b with status := none } task := by
      intro task
      simp [applyFieldUpdates, truthy]
    simp only [updateTask, h1]
  · have h1 : ∀ task : Task, applyFieldUpdates { b with priority := some "" } task
        = applyFieldUpdates { b with priority := none } task := by
      intro task
      simp [applyFieldUpdates, truthy]
    simp only [updateTask, h1]
  · have happ : applyFieldUpdates { title := some "" } t = t := by
      simp [applyFieldUpdates, truthy]
    simp [updateTask, hvalid, hfind, truthy, happ, saveUpdated, hdoc]
  · have happ : applyFieldUpdates { status := some "" } t = t := by
      simp [applyFieldUpdates, truthy]
    simp [updateTask, hvalid, hfind, truthy, happ, saveUpdated, hdoc]
  · have happ : applyFieldUpdates { priority := some "" } t = t := by
      simp [applyFieldUpdates, truthy]
    simp [updateTask, hvalid, hfind, truthy, happ, saveUpdated, hdoc]
  · have hj : jsTrim "" = "" := by decide
    have happ : applyFieldUpdates { description := some "" } t
        = { t with description := "" } := by
      simp [applyFieldUpdates, truthy, hj]
    have hval0 : validateTask { t with description := "" } = true := by
      have hd := hdoc
      simp only [validateTask, Bool.and_eq_true, decide_eq_true_eq] at hd ⊢
      refine ⟨⟨⟨⟨hd.1.1.1.1, hd.1.1.1.2⟩, ?_⟩, hd.1.2⟩, hd.2⟩
      show "".length ≤ 1000
      decide
    simp [updateTask, hvalid, hfind, truthy, happ, saveUpdated, hval0]

/-- Concrete instance of the empty-string field behaviour: each of
title/status/priority provided empty leaves the task unchanged with 200,
while an empty description clears the description. -/
theorem empty_string_fields_ignored_witness :
    (updateTask pdEx [taskA] 1 taskA.id { title := some "" }).1 = .ok 200 taskA
  ∧ (updateTask pdEx [taskA] 1 taskA.id { status := some "" }).1 = .ok 200 taskA
  ∧ (updateTask pdEx [taskA] 1 taskA.id { priority := some "" }).1 = .ok 200 taskA
  ∧ (updateTask pdEx [taskA] 1 taskA.id { description := some "" }).1
      = .ok 200 { taskA with description := "" } := by
  have hc := empty_string_fields_ignored pdEx [taskA] 1 tidA {} taskA
    (by decide) (by decide) (by decide) (by decide) (by decide)
  exact ⟨hc.2.2.2.1, hc.2.2.2.2.1, hc.2.2.2.2.2.1, hc.2.2.2.2.2.2⟩

/-- C7: updating the status to `completed` twice in a row is idempotent —
each call answers 200 with the task whose status is `completed` and all
other fields unchanged, and the second call leaves the store exactly as
the first left it. -/
theorem patch_completed_idempotent (store : List Task) (t : Task) (caller : Nat)
    (hnd : (store.map Task.id).Nodup) (ht : t ∈ store)
    (howner : t.userId = caller) (hvalid : isValidObjectId t.id = true) :
    (updateStatus store caller t.id (some "completed")).1
        = .ok 200 { t with status := "completed" }
  ∧ (updateStatus (updateStatus store caller t.id (some "completed")).2 caller t.id
        (some "completed")).1 = .ok 200 { t with status := "completed" }
  ∧ (updateStatus (updateStatus store caller t.id (some "completed")).2 caller t.id
        (some "completed")).2 = (updateStatus store caller t.id (some "completed")).2 := by
  have hmem : ("completed" : String) ∈ statusEnum := by decide
  have hfind := findOwned_some_self t caller store hnd ht howner
  have h1 : updateStatus store caller t.id (some "completed")
      = (.ok 200 { t with status := "completed" },
         store.map (fun u => if u.id == t.id then { t with status := "completed" } else u)) := by
    simp [updateStatus, truthy, hvalid, hfind, hmem]
  have hfind2 : findOwned
      (store.map (fun u => if u.id == t.id then { t with status := "completed" } else u))
      t.id caller = some { t with status := "completed" } :=
    findOwned_map_replace { t with status := "completed" } t.id caller rfl howner
      store ⟨t, ht, rfl⟩
  have h2 : updateStatus
      (store.map (fun u => if u.id == t.id then { t with status := "completed" } else u))
      caller t.id (some "completed")
      = (.ok 200 { t with status := "completed" },
         (store.map (fun u => if u.id == t.id then { t with status := "completed" } else u)).map
           (fun u => if u.id == t.id then { t with status := "completed" } else u)) := by
    have hfind2' := hfind2
    simp only [beq_iff_eq] at hfind2'
    simp [updateStatus, truthy, hvalid, hfind2', hmem]
  have h3 : (store.map (fun u => if u.id == t.id then { t with status := "completed" } else u)).map
      (fun u => if u.id == t.id then { t with status := "completed" } else u)
      = store.map (fun u => if u.id == t.id then { t with status := "completed" } else u) := by
    rw [List.map_map, replace_comp_self t.id { t with status := "completed" } rfl]
  rw [h1]
  exact ⟨rfl, by rw [h2], by rw [h2]; exact h3⟩

/-- Concrete instance of status-update idempotence on a stored pending
task. -/
theorem patch_completed_idempotent_witness :
    (updateStatus [taskA] 1 taskA.id (some "completed")).1
        = .ok 200 { taskA with status := "completed" }
  ∧ (updateStatus (updateStatus [taskA] 1 taskA.id (some "completed")).2 1 taskA.id
        (some "completed")).1 = .ok 200 { taskA with status := "completed" }
  ∧ (updateStatus (updateStatus [taskA] 1 taskA.id (some "completed")).2 1 taskA.id
        (some "completed")).2 = (updateStatus [taskA] 1 taskA.id (some "completed")).2 :=
  patch_completed_idempotent [taskA] taskA 1 (by decide) (by decide) (by decide) (by decide)

/-- C8: listing returns exactly the caller's tasks that pass the optional
status filter, sorted by the requested field — taken verbatim, with no
allow-list — defaulting to dueDate, and ascending for every direction
value other than `desc` (including absent ones). -/
theorem list_contract (store : List Task) (uid : Nat) (p : ListParams) :
    (listTasks store uid p).Perm (store.filter (listMatches uid p))
  ∧ (∀ t : Task, t ∈ listTasks store uid p ↔
      t ∈ store ∧ t.userId = uid ∧ (truthy p.status = true → t.status = p.status.getD ""))
  ∧ (listTasks store uid p).Sorted
      (fun a b => taskLe (p.sortBy.getD "dueDate") (p.order.getD "asc" == "desc") a b = true)
  ∧ (p.sortBy = none →
      (listTasks store uid p).Sorted
        (fun a b => taskLe "dueDate" (p.order.getD "asc" == "desc") a b = true))
  ∧ (p.order.getD "asc" ≠ "desc" →
      (listTasks store uid p).Sorted
        (fun a b => taskLe (p.sortBy.getD "dueDate") false a b = true)) := by
  have hperm : (listTasks store uid p).Perm (store.filter (listMatches uid p)) := by
    simp only [listTasks]
    exact List.perm_insertionSort _ _
  refine ⟨hperm, ?_, ?_, ?_, ?_⟩
  · intro t
    rw [hperm.mem_iff, List.mem_filter]
    by_cases hs : truthy p.status = true <;> simp [listMatches, hs]
  · haveI : IsTotal Task
        (fun a b => taskLe (p.sortBy.getD "dueDate") (p.order.getD "asc" == "desc") a b = true) :=
      ⟨taskLe_total _ _⟩
    haveI : IsTrans Task
        (fun a b => taskLe (p.sortBy.getD "dueDate") (p.order.getD "asc" == "desc") a b = true) :=
      ⟨taskLe_trans _ _⟩
    exact List.sorted_insertionSort _ _
  · intro h
    haveI : IsTotal Task
        (fun a b => taskLe "dueDate" (p.order.getD "asc" == "desc") a b = true) :=
      ⟨taskLe_total _ _⟩
    haveI : IsTrans Task
        (fun a b => taskLe "dueDate" (p.order.getD "asc" == "desc") a b = true) :=
      ⟨taskLe_trans _ _⟩
    simp only [listTasks, h, Option.getD_none]
    exact List.sorted_insertionSort _ _
  · intro h
    have hd : (p.order.getD "asc" == "desc") = false := by simpa using h
    haveI : IsTotal Task
        (fun a b => taskLe (p.sortBy.getD "dueDate") false a b = true) :=
      ⟨taskLe_total _ _⟩
    haveI : IsTrans Task
        (fun a b => taskLe (p.sortBy.getD "dueDate") false a b = true) :=
      ⟨taskLe_trans _ _⟩
    simp only [listTasks, hd]
    exact List.sorted_insertionSort _ _

/-- Concrete instance of the listing contract: both tasks of user 1 are
returned sorted ascending by dueDate under default parameters. -/
theorem list_contract_witness :
    (listTasks [taskA, taskB] 1 {}).Sorted
      (fun a b => taskLe "dueDate" ("asc" == "desc") a b = true)
  ∧ (listTasks [taskA, taskB] 1 {}).Sorted
      (fun a b => taskLe "dueDate" false a b = true) := by
  have hc := list_contract [taskA, taskB] 1 {}
  exact ⟨hc.2.2.2.1 rfl, hc.2.2.2.2 (by decide)⟩

end Taskify
